import Mathlib

/-
Verification of the task-management backend: a shallow embedding of the
request-validation and authorization-scoped data-access pipeline
(zod schemas, the protect auth middleware, and the task controller),
with theorems settling the frozen claims about it.

Conventions of the embedding:
  - the Mongo collection is a List of task records; object ids are the
    24-hex-char strings the routes receive, compared by string equality;
  - findOne / findOneAndUpdate / updateOne / updateMany are modelled as
    first-match (resp. all-match) operations on that list, with the
    ownership and soft-delete filter applied atomically, as in the source;
  - Mongoose 6 update semantics: keys whose value is undefined are
    stripped from a set-update before it is applied (the driver never
    sees them), and the timestamps option bumps updatedAt and preserves
    createdAt on updates;
  - dates are epoch integers, the clock is an explicit now argument.
-/

namespace TaskApp

/-- Task status enum from the Task model: pending, in-progress, completed. -/
inductive Status
  | pending
  | inProgress
  | completed
  deriving DecidableEq

/-- Task record, from server/models/Task.js: owner reference, title,
optional description, status, optional due date, soft-delete flag, and
the two timestamps added by the timestamps schema option. -/
structure Task where
  id : String
  user : String
  title : String
  description : Option String
  status : Status
  dueDate : Option Int
  isDeleted : Bool
  createdAt : Int
  updatedAt : Int
  deriving DecidableEq

/-- Outcome of a single-record handler: an HTTP status with a payload on
success, or an HTTP status with an error message (the error envelope
carries no record data). -/
inductive Resp (α : Type)
  | ok (status : Nat) (data : α)
  | err (status : Nat) (msg : String)
  deriving DecidableEq

/-- The ownership-and-liveness filter used by getTaskById, updateTask,
patchTask and deleteTask: the record with the requested id, owned by the
authenticated caller, and not soft-deleted. -/
def taskMatch (uid tid : String) (t : Task) : Bool :=
  t.id == tid && t.user == uid && !t.isDeleted

/-- Controller getTaskById: findOne on the scoped filter; 404 when the id
does not resolve under the ownership+deletion filter. -/
def getTaskById (uid tid : String) (db : List Task) : Resp Task :=
  match db.find? (taskMatch uid tid) with
  | some t => .ok 200 t
  | none => .err 404 ("Task not found")

/-- Mongo findOneAndUpdate modelled on a list: update the first record
matching the filter, returning the updated record (the new-true option)
and the new collection state. -/
def findOneAndUpdate (p : Task → Bool) (f : Task → Task) : List Task → Option Task × List Task
  | [] => (none, [])
  | t :: ts =>
    if p t then (some (f t), f t :: ts)
    else
      let r := findOneAndUpdate p f ts
      (r.1, t :: r.2)

/-- Body accepted by the PUT schema (updateTaskSchema): title and status
are required, description and dueDate are optional. -/
structure PutBody where
  title : String
  description : Option String
  status : Status
  dueDate : Option Int
  deriving DecidableEq

/-- The set-update built by updateTask from the destructured PUT body.
Mongoose strips keys whose value is undefined from a set-update, so an
omitted optional field leaves the stored value in place; the timestamps
option bumps updatedAt and leaves createdAt untouched. -/
def applyPut (b : PutBody) (now : Int) (t : Task) : Task :=
  { t with
    title := b.title
    description := match b.description with
      | some d => some d
      | none => t.description
    status := b.status
    dueDate := match b.dueDate with
      | some d => some d
      | none => t.dueDate
    updatedAt := now }

/-- Controller updateTask: findOneAndUpdate on the ownership+deletion
filter with the set-update of the destructured body; 404 when nothing
matches. -/
def updateTask (uid tid : String) (b : PutBody) (now : Int) (db : List Task) :
    Resp Task × List Task :=
  match (findOneAndUpdate (taskMatch uid tid) (applyPut b now) db).1 with
  | some t => (.ok 200 t, (findOneAndUpdate (taskMatch uid tid) (applyPut b now) db).2)
  | none => (.err 404 ("Task not found"), db)

/-- Fields of a PATCH body that survive the whitelist: each is present or
absent; no other field can reach the update. -/
structure PatchFields where
  title : Option String
  description : Option String
  status : Option Status
  dueDate : Option Int
  deriving DecidableEq

/-- Number of fields actually present in a whitelisted patch body, as
counted by Object.keys on the validated object. -/
def presentCount (f : PatchFields) : Nat :=
  (if f.title.isSome then 1 else 0) + (if f.description.isSome then 1 else 0) +
  (if f.status.isSome then 1 else 0) + (if f.dueDate.isSome then 1 else 0)

/-- The set-update built by patchTask from the whitelisted fields: only
present fields are merged; owner, soft-delete flag and createdAt are not
touched, and updatedAt is bumped by the timestamps option. -/
def applyPatch (f : PatchFields) (now : Int) (t : Task) : Task :=
  { t with
    title := match f.title with
      | some v => v
      | none => t.title
    description := match f.description with
      | some v => some v
      | none => t.description
    status := match f.status with
      | some v => v
      | none => t.status
    dueDate := match f.dueDate with
      | some v => some v
      | none => t.dueDate
    updatedAt := now }

/-- Controller patchTask: filters the body through the allowed-fields
whitelist (after zod, all fields are already whitelisted), rejects an
empty effective field set with 400, then findOneAndUpdate on the
ownership+deletion filter; 404 when nothing matches. -/
def patchTask (uid tid : String) (f : PatchFields) (now : Int) (db : List Task) :
    Resp Task × List Task :=
  if presentCount f = 0 then (.err 400 ("No valid fields provided for update"), db)
  else
    match (findOneAndUpdate (taskMatch uid tid) (applyPatch f now) db).1 with
    | some t => (.ok 200 t, (findOneAndUpdate (taskMatch uid tid) (applyPatch f now) db).2)
    | none => (.err 404 ("Task not found"), db)

/-- Controller deleteTask (single soft delete): updateOne on the
ownership+deletion filter setting isDeleted; 404 when the matched count
is zero, otherwise the response carries only the requested id. -/
def deleteTask (uid tid : String) (now : Int) (db : List Task) :
    Resp String × List Task :=
  match (findOneAndUpdate (taskMatch uid tid)
      (fun t => { t with isDeleted := true, updatedAt := now }) db).1 with
  | some _ => (.ok 200 tid, (findOneAndUpdate (taskMatch uid tid)
      (fun t => { t with isDeleted := true, updatedAt := now }) db).2)
  | none => (.err 404 ("Task not found"), db)

/-- Query accepted by the GET list schema (getTasksSchema) after
validation and coercion. -/
structure ListQuery where
  search : Option String
  status : Option Status
  page : Option Nat
  limit : Option Nat
  deriving DecidableEq

/-- Model of the Mongo text-index search on the title: some word of the
search string occurs as a word of the title. -/
def textMatch (search title : String) : Bool :=
  (search.splitOn (" ")).any (fun w => (title.splitOn (" ")).contains w)

/-- The list filter of getTasks: owner, not soft-deleted, plus the
optional status filter and the optional text search. -/
def matchesFilter (uid : String) (q : ListQuery) (t : Task) : Bool :=
  t.user == uid && !t.isDeleted
    && (match q.status with
        | some s => decide (t.status = s)
        | none => true)
    && (match q.search with
        | some s => textMatch s t.title
        | none => true)

/-- Configured pagination cap: MAX_PAGINATION_LIMIT, default 50. -/
def maxPaginationLimit : Nat := 50

/-- Effective page size of getTasks: a supplied limit is clamped to the
configured maximum, an absent limit defaults to 10. -/
def effLimit (q : ListQuery) : Nat :=
  match q.limit with
  | some l => min l maxPaginationLimit
  | none => 10

/-- Effective page of getTasks: the supplied page or 1. -/
def effPage (q : ListQuery) : Nat :=
  match q.page with
  | some p => p
  | none => 1

/-- Ceiling division, as Math.ceil of the division of naturals. -/
def ceilDiv (a b : Nat) : Nat := (a + b - 1) / b

/-- Insertion step of the sort by createdAt descending (newest first). -/
def insertByCreatedAt (t : Task) : List Task → List Task
  | [] => [t]
  | u :: us =>
    if u.createdAt ≤ t.createdAt then t :: u :: us
    else u :: insertByCreatedAt t us

/-- Sort of the filtered collection by createdAt descending, as the
sort stage of the getTasks query. -/
def sortByCreatedAtDesc : List Task → List Task
  | [] => []
  | t :: ts => insertByCreatedAt t (sortByCreatedAtDesc ts)

/-- Pagination metadata of the list response envelope. -/
structure ListMeta where
  count : Nat
  total : Nat
  page : Nat
  pages : Nat
  deriving DecidableEq

/-- The list response: always status 200 with a data page and metadata. -/
structure ListResp where
  status : Nat
  data : List Task
  meta : ListMeta
  deriving DecidableEq

/-- Records selected by the list query: the find filter of getTasks,
shared with its countDocuments call. -/
def listFiltered (uid : String) (q : ListQuery) (db : List Task) : List Task :=
  db.filter (matchesFilter uid q)

/-- Data page of getTasks: sort newest first, skip the earlier pages,
take one page of the clamped size. -/
def listPageData (uid : String) (q : ListQuery) (db : List Task) : List Task :=
  ((sortByCreatedAtDesc (listFiltered uid q db)).drop ((effPage q - 1) * effLimit q)).take
    (effLimit q)

/-- Total pages reported by getTasks: at least 1, else the ceiling of
total over the effective page size. -/
def listTotalPages (uid : String) (q : ListQuery) (db : List Task) : Nat :=
  max 1 (ceilDiv (listFiltered uid q db).length (effLimit q))

/-- Controller getTasks: scoped filter, newest-first sort, skip/take
pagination with the clamped page size, total count over the same filter,
total pages at least 1, and the early empty page when the requested page
lies beyond the last one. -/
def getTasks (uid : String) (q : ListQuery) (db : List Task) : ListResp :=
  if 1 < effPage q ∧ listTotalPages uid q db < effPage q then
    ⟨200, [], ⟨0, (listFiltered uid q db).length, effPage q, listTotalPages uid q db⟩⟩
  else
    ⟨200, listPageData uid q db,
      ⟨(listPageData uid q db).length, (listFiltered uid q db).length, effPage q,
        listTotalPages uid q db⟩⟩

/-- Sample task owned by alice, not deleted, used by concrete witnesses. -/
def tAlice : Task :=
  ⟨("65a000000000000000000001"), ("alice"), ("Write report"), some ("draft"),
    Status.pending, none, false, 10, 10⟩

/-- Stored user record, from server/models/User.js: the password field
holds the bcrypt hash and is marked select false. -/
structure User where
  id : String
  name : String
  email : String
  password : String
  deriving DecidableEq

/-- Identity attached to the request by the auth middleware after the
minus-password select: it carries no credential secret by construction. -/
structure AuthedUser where
  id : String
  name : String
  email : String
  deriving DecidableEq

/-- Bearer token as the verifier sees it: embedded subject id, issue
time, optional expiry, declared algorithm, and whether the signature
verifies under the server secret. -/
structure Token where
  id : String
  iat : Int
  exp : Option Int
  alg : String
  sigOk : Bool
  deriving DecidableEq

/-- Model of jwt.verify with the HS256 algorithm restriction: the
signature must verify, the algorithm must be HS256, and a present expiry
must lie strictly after the current clock. -/
def jwtVerify (t : Token) (now : Int) : Bool :=
  t.sigOk && (t.alg == ("HS256")) &&
    (match t.exp with
     | some e => decide (now < e)
     | none => true)

/-- Body of the try block of the protect middleware: verify the token,
resolve the embedded id to a live user minus the password; a missing
user raises the User-not-found error inside the try block. -/
def protectTry (t : Token) (now : Int) (users : List User) : Except String AuthedUser :=
  if jwtVerify t now then
    match users.find? (fun u => u.id == t.id) with
    | some u => .ok ⟨u.id, u.name, u.email⟩
    | none => .error ("User not found")
  else .error ("jwt verification failed")

/-- Result of the protect middleware: the resolved identity, or an HTTP
failure. -/
inductive ProtectResult
  | ok (u : AuthedUser)
  | fail (status : Nat) (msg : String)
  deriving DecidableEq

/-- The protect middleware: a missing or non-bearer header fails with the
no-token message; any error thrown inside the try block, including the
User-not-found one, is caught and replaced by the generic Not-authorized
error before it reaches the error handler. -/
def protect (auth : Option Token) (now : Int) (users : List User) : ProtectResult :=
  match auth with
  | some t =>
    match protectTry t now users with
    | .ok u => .ok u
    | .error _ => .fail 401 ("Not authorized")
  | none => .fail 401 ("Not authorized, no token")

/-- One day in seconds: the expiresIn 1d option of jwt.sign. -/
def oneDay : Int := 86400

/-- generateToken of the user controller: an HS256 token over the user
id expiring one day after issuance. -/
def generateToken (uid : String) (iat : Int) : Token :=
  ⟨uid, iat, some (iat + oneDay), ("HS256"), true⟩

/-- Data object of the registration response: id, name, email, a fresh
one-day token, and the expiresIn hint. -/
structure AuthPayload where
  id : String
  name : String
  email : String
  token : Token
  expiresIn : String
  deriving DecidableEq

/-- The data object returned by registerUser on success. -/
def registerPayload (u : User) (iat : Int) : AuthPayload :=
  ⟨u.id, u.name, u.email, generateToken u.id iat, ("1d")⟩

/-- The data object returned by loginUser on success. -/
def loginPayload (u : User) (iat : Int) : AuthPayload :=
  ⟨u.id, u.name, u.email, generateToken u.id iat, ("1d")⟩

/-- The data object returned by getMe: the resolved identity only. -/
def getMePayload (u : AuthedUser) : AuthedUser :=
  ⟨u.id, u.name, u.email⟩

/-- A full authenticated task read: protect, then the scoped getTaskById
with the resolved caller id. -/
def handleGetTaskById (auth : Option Token) (now : Int) (users : List User)
    (tid : String) (db : List Task) : Resp Task :=
  match protect auth now users with
  | .ok au => getTaskById au.id tid db
  | .fail s m => .err s m

/-- Replacing the stored password hash of a user record. -/
def withPassword (p : String) (u : User) : User :=
  { u with password := p }

/-- Scalar JSON value of a request body or query, as the wire sees it. -/
inductive JVal
  | s (v : String)
  | n (v : Int)
  | b (v : Bool)
  deriving DecidableEq

/-- A JSON object: association list of field names to scalar values. -/
abbrev JObj := List (String × JVal)

/-- One field-level violation of the validation-failure envelope. -/
structure FieldError where
  field : String
  message : String
  deriving DecidableEq

/-- First value bound to a key of a JSON object. -/
def lookupKey (body : JObj) (k : String) : Option JVal :=
  (body.find? (fun kv => kv.1 == k)).map (fun kv => kv.2)

/-- Violations contributed by one field validator. -/
def errsOf {α : Type} : Except FieldError α → List FieldError
  | .error e => [e]
  | .ok _ => []

/-- The status enum of the task schemas. -/
def parseStatus? (s : String) : Option Status :=
  if s == ("pending") then some Status.pending
  else if s == ("in-progress") then some Status.inProgress
  else if s == ("completed") then some Status.completed
  else none

/-- Value of a decimal digit. -/
def digitVal? (c : Char) : Option Nat :=
  if c.isDigit then some (c.toNat - 48) else none

/-- Accumulating decimal parse over the characters of a string. -/
def parseDecimalAux : List Char → Nat → Option Nat
  | [], acc => some acc
  | c :: cs, acc =>
    match digitVal? c with
    | some d => parseDecimalAux cs (acc * 10 + d)
    | none => none

/-- Model of the numeric coercion of z.coerce.number on a query string:
a non-empty all-digit string parses to its decimal value, anything else
is a coercion violation. -/
def parseDecimal? (s : String) : Option Nat :=
  if s.toList.isEmpty then none else parseDecimalAux s.toList 0

/-- Model of the date coercion of z.coerce.date: a number is an epoch
date, a string must parse as a date (modelled as a decimal parse), a
boolean coerces like the JS Date constructor does. -/
def coerceDate? : JVal → Option Int
  | .n v => some v
  | .s v => (parseDecimal? v).map (fun n => (n : Int))
  | .b v => some (if v then 1 else 0)

/-- The PATCH whitelist of the controller: the only externally settable
fields. -/
def allowedFields : List String :=
  [("title"), ("description"), ("status"), ("dueDate")]

/-- Title field of the patch body schema: optional string of length at
least 1. -/
def patchTitleField (body : JObj) : Except FieldError (Option String) :=
  match lookupKey body ("title") with
  | none => .ok none
  | some (.s v) =>
    if 1 ≤ v.length then .ok (some v)
    else .error ⟨("body.title"), ("String must contain at least 1 character(s)")⟩
  | some _ => .error ⟨("body.title"), ("Expected string, received other")⟩

/-- Description field of the patch body schema: optional string. -/
def patchDescriptionField (body : JObj) : Except FieldError (Option String) :=
  match lookupKey body ("description") with
  | none => .ok none
  | some (.s v) => .ok (some v)
  | some _ => .error ⟨("body.description"), ("Expected string, received other")⟩

/-- Status field of the patch body schema: optional enum member. -/
def patchStatusField (body : JObj) : Except FieldError (Option Status) :=
  match lookupKey body ("status") with
  | none => .ok none
  | some (.s v) =>
    match parseStatus? v with
    | some st => .ok (some st)
    | none => .error ⟨("body.status"), ("Invalid enum value")⟩
  | some _ => .error ⟨("body.status"), ("Invalid enum value")⟩

/-- Due-date field of the patch body schema: optional coerced date. -/
def patchDueDateField (body : JObj) : Except FieldError (Option Int) :=
  match lookupKey body ("dueDate") with
  | none => .ok none
  | some v =>
    match coerceDate? v with
    | some d => .ok (some d)
    | none => .error ⟨("body.dueDate"), ("Invalid date")⟩

/-- Field stage of the patch body schema: the four declared optional
fields are validated, every unknown key is stripped. -/
def zodPatchFields (body : JObj) : Except (List FieldError) PatchFields :=
  match patchTitleField body, patchDescriptionField body, patchStatusField body,
      patchDueDateField body with
  | .ok t, .ok d, .ok s, .ok dd => .ok ⟨t, d, s, dd⟩
  | rt, rd, rs, rdd => .error (errsOf rt ++ errsOf rd ++ errsOf rs ++ errsOf rdd)

/-- The patch body schema (patchTaskSchema body): field stage plus the
refinement that at least one declared field is present after
stripping. -/
def zodPatchBody (body : JObj) : Except (List FieldError) PatchFields :=
  match zodPatchFields body with
  | .ok f =>
    if presentCount f = 0 then
      .error [⟨("body"), ("At least one field must be provided for update")⟩]
    else .ok f
  | .error es => .error es

/-- Hex digit of the Mongo object-id format. -/
def isHexChar (c : Char) : Bool :=
  c.isDigit || (decide (('a') ≤ c) && decide (c ≤ ('f')))
    || (decide (('A') ≤ c) && decide (c ≤ ('F')))

/-- The 24-hex-char object-id regex of the param schemas. -/
def isValidObjectId (s : String) : Bool :=
  s.length == 24 && s.toList.all isHexChar

/-- Params stage shared by the id-carrying schemas. -/
def zodIdParam (idStr : String) : Except FieldError String :=
  if isValidObjectId idStr then .ok idStr
  else .error ⟨("params.id"), ("Invalid MongoDB ID")⟩

/-- The whole patchTaskSchema: id param plus patch body, collecting the
violations of both parts. -/
def zodPatchRequest (idStr : String) (body : JObj) :
    Except (List FieldError) (String × PatchFields) :=
  match zodIdParam idStr, zodPatchBody body with
  | .ok i, .ok f => .ok (i, f)
  | ri, rb =>
    .error (errsOf ri ++ (match rb with
      | .error es => es
      | .ok _ => []))

/-- PATCH route pipeline: zodResolver with patchTaskSchema, then the
patchTask controller; a validation failure answers 400 with the uniform
envelope and never reaches the controller. -/
def patchPipeline (uid idStr : String) (body : JObj) (now : Int) (db : List Task) :
    Resp Task × List Task :=
  match zodPatchRequest idStr body with
  | .error _ => (.err 400 ("Validation failed"), db)
  | .ok p => patchTask uid p.1 p.2 now db

/-- Raw query string of a list request, before validation: every value
arrives as a string. -/
structure RawListQuery where
  search : Option String
  status : Option String
  page : Option String
  limit : Option String
  deriving DecidableEq

/-- Status field of the list query schema: optional enum member. -/
def getTasksStatusField (r : RawListQuery) : Except FieldError (Option Status) :=
  match r.status with
  | none => .ok none
  | some s =>
    match parseStatus? s with
    | some st => .ok (some st)
    | none => .error ⟨("query.status"), ("Invalid enum value")⟩

/-- Page field of the list query schema: optional coerced integer of at
least 1. -/
def getTasksPageField (r : RawListQuery) : Except FieldError (Option Nat) :=
  match r.page with
  | none => .ok none
  | some s =>
    match parseDecimal? s with
    | some n =>
      if 1 ≤ n then .ok (some n)
      else .error ⟨("query.page"), ("Number must be greater than or equal to 1")⟩
    | none => .error ⟨("query.page"), ("Expected number, received nan")⟩

/-- Limit field of the list query schema: optional coerced integer
between 1 and 100 — a limit above 100 is a violation, not clamped. -/
def getTasksLimitField (r : RawListQuery) : Except FieldError (Option Nat) :=
  match r.limit with
  | none => .ok none
  | some s =>
    match parseDecimal? s with
    | some n =>
      if 1 ≤ n then
        if n ≤ 100 then .ok (some n)
        else .error ⟨("query.limit"), ("Number must be less than or equal to 100")⟩
      else .error ⟨("query.limit"), ("Number must be greater than or equal to 1")⟩
    | none => .error ⟨("query.limit"), ("Expected number, received nan")⟩

/-- The getTasksSchema: the three constrained query fields plus the
unconstrained search string, collecting all violations. -/
def zodGetTasks (r : RawListQuery) : Except (List FieldError) ListQuery :=
  match getTasksStatusField r, getTasksPageField r, getTasksLimitField r with
  | .ok st, .ok pg, .ok lm => .ok ⟨r.search, st, pg, lm⟩
  | rs, rp, rl => .error (errsOf rs ++ errsOf rp ++ errsOf rl)

/-- GET list route pipeline: zodResolver with getTasksSchema, then the
getTasks controller; a validation failure answers 400 with the collected
violations. -/
def getTasksPipeline (uid : String) (r : RawListQuery) (db : List Task) :
    Except (Nat × List FieldError) ListResp :=
  match zodGetTasks r with
  | .error es => .error (400, es)
  | .ok q => .ok (getTasks uid q db)

/-- Raw query string of a bulk delete-by-status request. -/
structure RawDeleteQuery where
  status : Option String
  confirm : Option String
  deriving DecidableEq

/-- Status field of the bulk delete schema: required enum member. -/
def deleteStatusField (r : RawDeleteQuery) : Except FieldError Status :=
  match r.status with
  | none => .error ⟨("query.status"), ("Status query parameter is required")⟩
  | some s =>
    match parseStatus? s with
    | some st => .ok st
    | none => .error ⟨("query.status"), ("Invalid enum value")⟩

/-- Confirm field of the bulk delete schema: required literal true. -/
def deleteConfirmField (r : RawDeleteQuery) : Except FieldError Unit :=
  match r.confirm with
  | none => .error ⟨("query.confirm"), ("Confirmation required: add ?confirm=true")⟩
  | some s =>
    if s == ("true") then .ok ()
    else .error ⟨("query.confirm"), ("Invalid enum value")⟩

/-- The deleteTasksByStatusSchema: required status and required
confirmation, collecting the violations of both. -/
def zodDeleteTasksByStatus (r : RawDeleteQuery) : Except (List FieldError) Status :=
  match deleteStatusField r, deleteConfirmField r with
  | .ok st, .ok _ => .ok st
  | rs, rc => .error (errsOf rs ++ errsOf rc)

/-- The bulk match of deleteTasksByStatus: owned, of the requested
status, not yet soft-deleted. -/
def bulkDeleteMatch (uid : String) (s : Status) (t : Task) : Bool :=
  t.user == uid && decide (t.status = s) && !t.isDeleted

/-- Controller deleteTasksByStatus: updateMany setting isDeleted on
every owned, live task of the requested status; returns the modified
count and the new collection. -/
def deleteTasksByStatus (uid : String) (s : Status) (now : Int) (db : List Task) :
    Nat × List Task :=
  ((db.filter (bulkDeleteMatch uid s)).length,
   db.map (fun t =>
     if bulkDeleteMatch uid s t then { t with isDeleted := true, updatedAt := now } else t))

/-- DELETE-by-status route pipeline: zodResolver with
deleteTasksByStatusSchema, then the deleteTasksByStatus controller. -/
def deleteByStatusPipeline (uid : String) (r : RawDeleteQuery) (now : Int)
    (db : List Task) : Resp Nat × List Task :=
  match zodDeleteTasksByStatus r with
  | .error _ => (.err 400 ("Validation failed"), db)
  | .ok s => (.ok 200 (deleteTasksByStatus uid s now db).1, (deleteTasksByStatus uid s now db).2)

/-- Raw request triple as express hands it to the middleware chain. -/
structure RawReq where
  body : JObj
  params : JObj
  query : JObj
  deriving DecidableEq

/-- Output of a schema parse of the whole triple: a part is present
exactly when the schema declared that part (zod strips undeclared
keys of the top-level object). -/
structure ParsedReq where
  body : Option JObj
  params : Option JObj
  query : Option JObj
  deriving DecidableEq

/-- The overwrite step of zodResolver: each request part is replaced by
the corresponding part of the validated data when that part is present,
and otherwise falls back to the raw part. -/
def applyValidated (r : RawReq) (v : ParsedReq) : RawReq :=
  ⟨v.body.getD r.body, v.params.getD r.params, v.query.getD r.query⟩

/-- Parse under the empty object schema used on the complete-all route:
every key of the input triple is undeclared, so all three parts are
stripped from the output. -/
def parseEmptySchema (_ : RawReq) : ParsedReq :=
  ⟨none, none, none⟩

theorem findOneAndUpdate_of_no_match (p : Task → Bool) (f : Task → Task) (db : List Task)
    (h : ∀ x ∈ db, p x = false) :
    findOneAndUpdate p f db = (none, db) := by
  induction db with
  | nil => rfl
  | cons t ts ih =>
    have ht : p t = false := h t (List.mem_cons_self t ts)
    simp only [findOneAndUpdate, ht, Bool.false_eq_true, if_false]
    have := ih (fun x hx => h x (List.mem_cons_of_mem t hx))
    simp [this]

theorem findOneAndUpdate_of_unique_match (p : Task → Bool) (f : Task → Task) (db : List Task)
    (t : Task) (hmem : t ∈ db) (hp : p t = true)
    (huniq : ∀ x ∈ db, p x = true → x = t) :
    (findOneAndUpdate p f db).1 = some (f t) := by
  induction db with
  | nil => cases hmem
  | cons u us ih =>
    by_cases hu : p u = true
    · have : u = t := huniq u (List.mem_cons_self u us) hu
      subst this
      simp [findOneAndUpdate, hu]
    · have hufalse : p u = false := by
        cases hpu : p u with
        | false => rfl
        | true => exact absurd hpu hu
      have hmem' : t ∈ us := by
        rcases List.mem_cons.mp hmem with h | h
        · exact absurd (h ▸ hp) (by simp [hufalse, h])
        · exact h
      have := ih hmem' (fun x hx hpx => huniq x (List.mem_cons_of_mem u hx) hpx)
      simp [findOneAndUpdate, hufalse, this]

theorem mem_findOneAndUpdate_snd (p : Task → Bool) (f : Task → Task) (db : List Task)
    (u : Task) (h : u ∈ (findOneAndUpdate p f db).2) :
    u ∈ db ∨ ∃ x, x ∈ db ∧ p x = true ∧ u = f x := by
  induction db with
  | nil => simp [findOneAndUpdate] at h
  | cons t ts ih =>
    by_cases ht : p t = true
    · simp only [findOneAndUpdate, ht, if_true] at h
      rcases List.mem_cons.mp h with h1 | h1
      · exact Or.inr ⟨t, List.mem_cons_self t ts, ht, h1⟩
      · exact Or.inl (List.mem_cons_of_mem t h1)
    · have hf : p t = false := by
        cases hpt : p t with
        | false => rfl
        | true => exact absurd hpt ht
      simp only [findOneAndUpdate, hf, Bool.false_eq_true, if_false] at h
      rcases List.mem_cons.mp h with h1 | h1
      · exact Or.inl (h1 ▸ List.mem_cons_self t ts)
      · rcases ih h1 with h2 | ⟨x, hx, hpx, hux⟩
        · exact Or.inl (List.mem_cons_of_mem t h2)
        · exact Or.inr ⟨x, List.mem_cons_of_mem t hx, hpx, hux⟩

/-- Records of a collection whose mapped ids are without duplicates are
determined by their id. -/
theorem eq_of_mem_of_id_eq {db : List Task} (h : (db.map Task.id).Nodup)
    {x t : Task} (hx : x ∈ db) (ht : t ∈ db) (hid : x.id = t.id) : x = t :=
  List.inj_on_of_nodup_map h hx ht hid

theorem mem_insertByCreatedAt {x t : Task} {l : List Task} :
    x ∈ insertByCreatedAt t l ↔ x = t ∨ x ∈ l := by
  induction l with
  | nil => simp [insertByCreatedAt]
  | cons u us ih =>
    by_cases h : u.createdAt ≤ t.createdAt
    · simp [insertByCreatedAt, h]
    · simp only [insertByCreatedAt, h, if_false, List.mem_cons, ih]
      tauto

theorem mem_sortByCreatedAtDesc {x : Task} {l : List Task} :
    x ∈ sortByCreatedAtDesc l ↔ x ∈ l := by
  induction l with
  | nil => simp [sortByCreatedAtDesc]
  | cons t ts ih => simp [sortByCreatedAtDesc, mem_insertByCreatedAt, ih]

/-- Everything on the data page of a list response was selected by the
scoped filter. -/
theorem getTasks_data_subset (uid : String) (q : ListQuery) (db : List Task) :
    (getTasks uid q db).data ⊆ listFiltered uid q db := by
  intro x hx
  unfold getTasks at hx
  by_cases hcond : 1 < effPage q ∧ listTotalPages uid q db < effPage q
  · simp [hcond] at hx
  · simp only [hcond, if_false] at hx
    have h1 := List.take_subset _ _ hx
    have h2 := List.drop_subset _ _ h1
    exact mem_sortByCreatedAtDesc.mp h2

/-- Under unique ids, a record owned by another user or soft-deleted
matches no entry of the scoped single-record filter. -/
theorem taskMatch_false_of_foreign {db : List Task} {uid : String} {t : Task}
    (hnodup : (db.map Task.id).Nodup) (hmem : t ∈ db)
    (hforeign : t.user ≠ uid ∨ t.isDeleted = true) :
    ∀ x ∈ db, taskMatch uid t.id x = false := by
  intro x hx
  cases hmatch : taskMatch uid t.id x with
  | false => rfl
  | true =>
    exfalso
    have hsplit := hmatch
    simp only [taskMatch, Bool.and_eq_true, beq_iff_eq, Bool.not_eq_true'] at hsplit
    have hxt : x = t := eq_of_mem_of_id_eq hnodup hx hmem hsplit.1.1
    subst hxt
    rcases hforeign with h | h
    · exact h hsplit.1.2
    · rw [hsplit.2] at h
      exact Bool.false_ne_true h

/-- C1: for every task t and authenticated caller u, if t is owned by
another user or already soft-deleted, then getTaskById, updateTask (PUT),
patchTask (PATCH) and deleteTask (single soft delete) on the id of t all
answer 404 with no record data, leave the collection unchanged, and t
never appears on any list page for u. -/
theorem C1_foreign_or_deleted_task_is_invisible
    (db : List Task) (uid : String) (t : Task)
    (hnodup : (db.map Task.id).Nodup) (hmem : t ∈ db)
    (hforeign : t.user ≠ uid ∨ t.isDeleted = true)
    (b : PutBody) (f : PatchFields) (hf : presentCount f ≠ 0)
    (now : Int) (q : ListQuery) :
    getTaskById uid t.id db = .err 404 ("Task not found") ∧
    updateTask uid t.id b now db = (.err 404 ("Task not found"), db) ∧
    patchTask uid t.id f now db = (.err 404 ("Task not found"), db) ∧
    deleteTask uid t.id now db = (.err 404 ("Task not found"), db) ∧
    t ∉ (getTasks uid q db).data := by
  have hno : ∀ x ∈ db, taskMatch uid t.id x = false :=
    taskMatch_false_of_foreign hnodup hmem hforeign
  have hfind : db.find? (taskMatch uid t.id) = none := by
    rw [List.find?_eq_none]
    intro x hx
    simp [hno x hx]
  refine ⟨?_, ?_, ?_, ?_, ?_⟩
  · simp [getTaskById, hfind]
  · have h := findOneAndUpdate_of_no_match (taskMatch uid t.id) (applyPut b now) db hno
    simp [updateTask, h]
  · have h := findOneAndUpdate_of_no_match (taskMatch uid t.id) (applyPatch f now) db hno
    simp [patchTask, h, hf]
  · have h := findOneAndUpdate_of_no_match (taskMatch uid t.id)
      (fun x => { x with isDeleted := true, updatedAt := now }) db hno
    simp [deleteTask, h]
  · intro hmemdata
    have hmemfil := getTasks_data_subset uid q db hmemdata
    have hp := List.of_mem_filter hmemfil
    simp only [matchesFilter, Bool.and_eq_true, beq_iff_eq, Bool.not_eq_true'] at hp
    rcases hforeign with h | h
    · exact h hp.1.1.1
    · rw [hp.1.1.2] at h
      exact Bool.false_ne_true h

/-- Witness for C1 at a concrete collection: caller bob, a task owned by
alice, a concrete PUT body, patch body and list query. -/
theorem C1_witness :
    getTaskById ("bob") (tAlice.id) [tAlice] = .err 404 ("Task not found") ∧
    updateTask ("bob") (tAlice.id) ⟨("X"), none, Status.completed, none⟩ 99 [tAlice]
      = (.err 404 ("Task not found"), [tAlice]) ∧
    patchTask ("bob") (tAlice.id) ⟨some ("X"), none, none, none⟩ 99 [tAlice]
      = (.err 404 ("Task not found"), [tAlice]) ∧
    deleteTask ("bob") (tAlice.id) 99 [tAlice]
      = (.err 404 ("Task not found"), [tAlice]) ∧
    tAlice ∉ (getTasks ("bob") ⟨none, none, none, none⟩ [tAlice]).data :=
  C1_foreign_or_deleted_task_is_invisible [tAlice] ("bob") tAlice
    (by decide) (by decide) (by decide)
    ⟨("X"), none, Status.completed, none⟩ ⟨some ("X"), none, none, none⟩
    (by decide) 99 ⟨none, none, none, none⟩

theorem find?_withPassword (users : List User) (x p : String) :
    (users.map (withPassword p)).find? (fun u => u.id == x)
      = (users.find? (fun u => u.id == x)).map (withPassword p) := by
  induction users with
  | nil => rfl
  | cons u us ih =>
    simp only [List.map_cons]
    by_cases h : u.id == x
    · rw [List.find?_cons_of_pos, List.find?_cons_of_pos]
      · simp
      · exact h
      · simpa [withPassword] using h
    · rw [List.find?_cons_of_neg, List.find?_cons_of_neg]
      · exact ih
      · exact h
      · simpa [withPassword] using h

theorem protectTry_password_independent (t : Token) (now : Int) (users : List User)
    (p q : String) :
    protectTry t now (users.map (withPassword p))
      = protectTry t now (users.map (withPassword q)) := by
  unfold protectTry
  by_cases hv : jwtVerify t now
  · simp only [hv, if_true, find?_withPassword]
    cases users.find? (fun u => u.id == t.id) <;> simp [withPassword]
  · simp [hv]

theorem protectTry_ok_shape (t : Token) (now : Int) (users : List User) (au : AuthedUser)
    (h : protectTry t now users = .ok au) :
    ∃ u, u ∈ users ∧ au = ⟨u.id, u.name, u.email⟩ := by
  unfold protectTry at h
  by_cases hv : jwtVerify t now
  · simp only [hv, if_true] at h
    cases hfind : users.find? (fun u => u.id == t.id) with
    | none => rw [hfind] at h; cases h
    | some u =>
      rw [hfind] at h
      have := List.mem_of_find?_eq_some hfind
      cases h
      exact ⟨u, this, rfl⟩
  · simp [hv] at h

/-- C2, code level: a verified token whose subject no longer exists is
rejected with 401, but the User-not-found reason raised inside the try
block is caught by its own catch clause and collapsed into the same
generic Not-authorized message a bad-signature token gets, so the two
cases are indistinguishable to the client, against the claim and against
the expectation of the repository test suite. -/
theorem C2_deleted_user_reason_collapsed :
    protectTry ⟨("u-temp"), 0, none, ("HS256"), true⟩ 0 [] = .error ("User not found") ∧
    protect (some ⟨("u-temp"), 0, none, ("HS256"), true⟩) 0 []
      = .fail 401 ("Not authorized") ∧
    protect (some ⟨("u1"), 0, none, ("HS256"), false⟩)
      0 [⟨("u1"), ("Carol"), ("carol@example.com"), ("hash1")⟩]
      = .fail 401 ("Not authorized") ∧
    ("Not authorized") ≠ ("User not found") := by
  refine ⟨rfl, rfl, rfl, by decide⟩

/-- C10: tokens issued by registration and by login expire one day after
issuance: strictly more than one day later, verification fails and the
protect middleware answers 401; the spec never states this lifetime. -/
theorem C10_issued_tokens_expire_after_one_day
    (u : User) (iat now : Int) (users : List User)
    (h : iat + oneDay < now) :
    (registerPayload u iat).token = generateToken u.id iat ∧
    (loginPayload u iat).token = generateToken u.id iat ∧
    jwtVerify (generateToken u.id iat) now = false ∧
    protect (some (generateToken u.id iat)) now users = .fail 401 ("Not authorized") := by
  have hnot : ¬ now < iat + oneDay := by omega
  have hv : jwtVerify (generateToken u.id iat) now = false := by
    simp [jwtVerify, generateToken, hnot]
  refine ⟨rfl, rfl, hv, ?_⟩
  simp [protect, protectTry, hv]

/-- Witness for C10 at a concrete user and clock two days after issue. -/
theorem C10_witness :
    (registerPayload ⟨("u1"), ("Carol"), ("carol@example.com"), ("hash1")⟩ 0).token
      = generateToken ("u1") 0 ∧
    (loginPayload ⟨("u1"), ("Carol"), ("carol@example.com"), ("hash1")⟩ 0).token
      = generateToken ("u1") 0 ∧
    jwtVerify (generateToken ("u1") 0) 172800 = false ∧
    protect (some (generateToken ("u1") 0)) 172800 [] = .fail 401 ("Not authorized") :=
  C10_issued_tokens_expire_after_one_day
    ⟨("u1"), ("Carol"), ("carol@example.com"), ("hash1")⟩ 0 172800 [] (by decide)

/-- C8: the stored password hash never reaches a serialized response:
the registration and login data objects and the whole protect-then-read
pipeline are unchanged under any replacement of the stored hash, and the
identity the auth gate attaches is built from id, name and email only
(its type carries no credential field). -/
theorem C8_password_hash_never_serialized :
    (∀ (u : User) (iat : Int) (p q : String),
        registerPayload (withPassword p u) iat = registerPayload (withPassword q u) iat) ∧
    (∀ (u : User) (iat : Int) (p q : String),
        loginPayload (withPassword p u) iat = loginPayload (withPassword q u) iat) ∧
    (∀ (tok : Option Token) (now : Int) (users : List User) (p q : String),
        protect tok now (users.map (withPassword p))
          = protect tok now (users.map (withPassword q))) ∧
    (∀ (tok : Option Token) (now : Int) (users : List User) (au : AuthedUser),
        protect tok now users = .ok au → ∃ u, u ∈ users ∧ au = ⟨u.id, u.name, u.email⟩) ∧
    (∀ (tok : Option Token) (now : Int) (users : List User) (tid : String)
        (db : List Task) (p q : String),
        handleGetTaskById tok now (users.map (withPassword p)) tid db
          = handleGetTaskById tok now (users.map (withPassword q)) tid db) := by
  have hprot : ∀ (tok : Option Token) (now : Int) (users : List User) (p q : String),
      protect tok now (users.map (withPassword p))
        = protect tok now (users.map (withPassword q)) := by
    intro tok now users p q
    cases tok with
    | none => rfl
    | some t =>
      simp only [protect]
      rw [protectTry_password_independent t now users p q]
  refine ⟨fun u iat p q => rfl, fun u iat p q => rfl, hprot, ?_, ?_⟩
  · intro tok now users au h
    cases tok with
    | none => cases h
    | some t =>
      simp only [protect] at h
      cases hpt : protectTry t now users with
      | ok u0 =>
        rw [hpt] at h
        simp only [ProtectResult.ok.injEq] at h
        subst h
        exact protectTry_ok_shape t now users _ hpt
      | error e =>
        rw [hpt] at h
        simp at h
  · intro tok now users tid db p q
    unfold handleGetTaskById
    rw [hprot tok now users p q]

/-- Witness for C8: concrete payload invariance under two hashes, and a
concrete resolved identity. -/
theorem C8_witness :
    registerPayload (withPassword ("h1") ⟨("u1"), ("Carol"), ("carol@example.com"), ("x")⟩) 0
      = registerPayload (withPassword ("h2") ⟨("u1"), ("Carol"), ("carol@example.com"), ("x")⟩) 0 ∧
    (∃ u, u ∈ [(⟨("u1"), ("Carol"), ("carol@example.com"), ("x")⟩ : User)] ∧
        (⟨("u1"), ("Carol"), ("carol@example.com")⟩ : AuthedUser) = ⟨u.id, u.name, u.email⟩) :=
  ⟨C8_password_hash_never_serialized.1 ⟨("u1"), ("Carol"), ("carol@example.com"), ("x")⟩ 0
      ("h1") ("h2"),
   C8_password_hash_never_serialized.2.2.2.1 (some ⟨("u1"), 0, none, ("HS256"), true⟩) 5
      [⟨("u1"), ("Carol"), ("carol@example.com"), ("x")⟩]
      ⟨("u1"), ("Carol"), ("carol@example.com")⟩ (by decide)⟩

theorem zodIdParam_ok {s i : String} (h : zodIdParam s = .ok i) : i = s := by
  unfold zodIdParam at h
  by_cases hv : isValidObjectId s = true
  · simp [hv] at h
    exact h.symm
  · simp [hv] at h

theorem zodPatchBody_ok_presentCount {body : JObj} {f : PatchFields}
    (h : zodPatchBody body = .ok f) : presentCount f ≠ 0 := by
  unfold zodPatchBody at h
  cases hf : zodPatchFields body with
  | ok f0 =>
    rw [hf] at h
    by_cases hc : presentCount f0 = 0
    · simp [hc] at h
    · simp only [hc, if_false] at h
      cases h
      exact hc
  | error es => rw [hf] at h; cases h

theorem zodPatchRequest_ok {idStr : String} {body : JObj} {p : String × PatchFields}
    (h : zodPatchRequest idStr body = .ok p) :
    p.1 = idStr ∧ zodPatchBody body = .ok p.2 := by
  unfold zodPatchRequest at h
  cases hi : zodIdParam idStr with
  | ok i =>
    cases hb : zodPatchBody body with
    | ok f =>
      rw [hi, hb] at h
      injection h with h2
      subst h2
      exact ⟨zodIdParam_ok hi, rfl⟩
    | error es => rw [hi, hb] at h; cases h
  | error e =>
    cases hb : zodPatchBody body with
    | ok f => rw [hi, hb] at h; cases h
    | error es => rw [hi, hb] at h; cases h

/-- Under unique ids, the scoped filter at the id of an owned live task
matches exactly that task. -/
theorem taskMatch_unique {db : List Task} (uid : String) {t : Task}
    (hnodup : (db.map Task.id).Nodup) (hmem : t ∈ db) :
    ∀ x ∈ db, taskMatch uid t.id x = true → x = t := by
  intro x hx hm
  simp only [taskMatch, Bool.and_eq_true, beq_iff_eq, Bool.not_eq_true'] at hm
  exact eq_of_mem_of_id_eq hnodup hx hmem hm.1.1

theorem lookupKey_none_of_unlisted (k : String) {body : JObj}
    (hbody : ∀ kv ∈ body, kv.1 ∉ allowedFields) (hk : k ∈ allowedFields) :
    lookupKey body k = none := by
  unfold lookupKey
  have : body.find? (fun kv => kv.1 == k) = none := by
    rw [List.find?_eq_none]
    intro kv hkv
    simp only [beq_iff_eq]
    intro hEq
    exact hbody kv hkv (hEq ▸ hk)
  simp [this]

/-- C3: a PATCH by the owner of a live task merges only whitelisted
fields: the validated field set contains at most title, description,
status and dueDate; caller-supplied owner, soft-delete or timestamp
fields never reach the update, which preserves owner, isDeleted, id and
createdAt; and a body with no whitelisted field at all is rejected with
a 400 validation failure leaving the collection unchanged. -/
theorem C3_patch_whitelist_enforced
    (uid : String) (t : Task) (db : List Task) (body : JObj) (now : Int)
    (hnodup : (db.map Task.id).Nodup) (hmem : t ∈ db)
    (hown : t.user = uid) (hlive : t.isDeleted = false) :
    ((∀ kv ∈ body, kv.1 ∉ allowedFields) →
      patchPipeline uid t.id body now db = (.err 400 ("Validation failed"), db)) ∧
    (∀ p, zodPatchRequest t.id body = .ok p →
      (patchPipeline uid t.id body now db).1 = .ok 200 (applyPatch p.2 now t) ∧
      (applyPatch p.2 now t).user = t.user ∧
      (applyPatch p.2 now t).isDeleted = t.isDeleted ∧
      (applyPatch p.2 now t).createdAt = t.createdAt ∧
      (applyPatch p.2 now t).id = t.id ∧
      (∀ u ∈ (patchPipeline uid t.id body now db).2,
          u ∈ db ∨ u = applyPatch p.2 now t)) := by
  constructor
  · intro hbody
    have ht := lookupKey_none_of_unlisted ("title") hbody (by simp [allowedFields])
    have hd := lookupKey_none_of_unlisted ("description") hbody (by simp [allowedFields])
    have hs := lookupKey_none_of_unlisted ("status") hbody (by simp [allowedFields])
    have hdd := lookupKey_none_of_unlisted ("dueDate") hbody (by simp [allowedFields])
    have hfields : zodPatchFields body = .ok ⟨none, none, none, none⟩ := by
      unfold zodPatchFields patchTitleField patchDescriptionField patchStatusField
        patchDueDateField
      rw [ht, hd, hs, hdd]
    have hzb : zodPatchBody body
        = .error [⟨("body"), ("At least one field must be provided for update")⟩] := by
      unfold zodPatchBody
      rw [hfields]
      simp [presentCount]
    unfold patchPipeline zodPatchRequest
    rw [hzb]
    cases hi : zodIdParam t.id <;> simp
  · intro p hp
    obtain ⟨hid, hbodyok⟩ := zodPatchRequest_ok hp
    have hcount := zodPatchBody_ok_presentCount hbodyok
    have hmatchT : taskMatch uid t.id t = true := by
      simp [taskMatch, hown, hlive]
    have huniq := taskMatch_unique uid hnodup hmem
    have hfst := findOneAndUpdate_of_unique_match (taskMatch uid t.id)
      (applyPatch p.2 now) db t hmem hmatchT huniq
    have hpipe : patchPipeline uid t.id body now db
        = patchTask uid t.id p.2 now db := by
      unfold patchPipeline
      rw [hp]
      show patchTask uid p.1 p.2 now db = patchTask uid t.id p.2 now db
      rw [hid]
    have hresp : (patchTask uid t.id p.2 now db).1 = .ok 200 (applyPatch p.2 now t) := by
      unfold patchTask
      simp only [hcount, if_false, hfst]
    refine ⟨by rw [hpipe]; exact hresp, rfl, rfl, rfl, rfl, ?_⟩
    intro u hu
    rw [hpipe] at hu
    have hsnd : (patchTask uid t.id p.2 now db).2
        = (findOneAndUpdate (taskMatch uid t.id) (applyPatch p.2 now) db).2 := by
      unfold patchTask
      simp only [hcount, if_false, hfst]
    rw [hsnd] at hu
    rcases mem_findOneAndUpdate_snd _ _ db u hu with h | ⟨x, hx, hpx, hux⟩
    · exact Or.inl h
    · have : x = t := huniq x hx hpx
      subst this
      exact Or.inr hux

/-- Witness for C3: a patch body carrying a status change together with
a forbidden owner field, against a singleton collection. -/
theorem C3_witness :
    (patchPipeline ("alice") (tAlice.id)
        [(("status"), JVal.s ("completed")), (("user"), JVal.s ("mallory"))] 99 [tAlice]).1
      = .ok 200 (applyPatch ⟨none, none, some Status.completed, none⟩ 99 tAlice) ∧
    (applyPatch ⟨none, none, some Status.completed, none⟩ 99 tAlice).user = tAlice.user ∧
    patchPipeline ("alice") (tAlice.id) [(("user"), JVal.s ("mallory"))] 99 [tAlice]
      = (.err 400 ("Validation failed"), [tAlice]) := by
  have h := C3_patch_whitelist_enforced ("alice") tAlice [tAlice]
    [(("status"), JVal.s ("completed")), (("user"), JVal.s ("mallory"))] 99
    (by decide) (by decide) (by decide) (by decide)
  have h2 := C3_patch_whitelist_enforced ("alice") tAlice [tAlice]
    [(("user"), JVal.s ("mallory"))] 99
    (by decide) (by decide) (by decide) (by decide)
  have hok := h.2 ((tAlice.id), ⟨none, none, some Status.completed, none⟩) (by rfl)
  exact ⟨hok.1, hok.2.1, h2.1 (by decide)⟩

/-- C4, counterexample: a PUT that omits the optional description on a
task whose stored description is present succeeds, and the resulting
record still carries the old description — the omitted optional field
retained its previous value, against the no-partial-merge reading of
full-update semantics (the controller issues a set-update and Mongoose
strips undefined values, so omitted fields are left alone). -/
theorem C4_counterexample :
    (updateTask ("alice") (tAlice.id)
        ⟨("New title"), none, Status.completed, none⟩ 99 [tAlice]).1
      = .ok 200 ⟨("65a000000000000000000001"), ("alice"), ("New title"), some ("draft"),
          Status.completed, none, false, 10, 99⟩ ∧
    tAlice.description = some ("draft") := by
  exact ⟨by decide, by decide⟩

/-- C4 (amended): a PUT by the owner of a live task sets title and
status (always supplied after validation) and any supplied optional
field from the input, while an omitted optional field retains its stored
value; createdAt is preserved and updatedAt bumped; and an id that does
not resolve under the ownership+deletion filter answers 404 leaving the
collection unchanged. -/
theorem C4_put_update_semantics
    (uid : String) (t : Task) (db : List Task) (b : PutBody) (now : Int)
    (hnodup : (db.map Task.id).Nodup) (hmem : t ∈ db)
    (hown : t.user = uid) (hlive : t.isDeleted = false) :
    (updateTask uid t.id b now db).1 = .ok 200 (applyPut b now t) ∧
    (applyPut b now t).title = b.title ∧
    (applyPut b now t).status = b.status ∧
    (applyPut b now t).createdAt = t.createdAt ∧
    (applyPut b now t).updatedAt = now ∧
    (b.description = none → (applyPut b now t).description = t.description) ∧
    (∀ d, b.description = some d → (applyPut b now t).description = some d) ∧
    (b.dueDate = none → (applyPut b now t).dueDate = t.dueDate) ∧
    (∀ d, b.dueDate = some d → (applyPut b now t).dueDate = some d) ∧
    (∀ tid, (∀ x ∈ db, taskMatch uid tid x = false) →
      updateTask uid tid b now db = (.err 404 ("Task not found"), db)) := by
  have hmatchT : taskMatch uid t.id t = true := by
    simp [taskMatch, hown, hlive]
  have hfst := findOneAndUpdate_of_unique_match (taskMatch uid t.id) (applyPut b now) db t
    hmem hmatchT (taskMatch_unique uid hnodup hmem)
  refine ⟨?_, rfl, rfl, rfl, rfl, ?_, ?_, ?_, ?_, ?_⟩
  · unfold updateTask
    simp only [hfst]
  · intro h
    simp [applyPut, h]
  · intro d h
    simp [applyPut, h]
  · intro h
    simp [applyPut, h]
  · intro d h
    simp [applyPut, h]
  · intro tid hno
    have h := findOneAndUpdate_of_no_match (taskMatch uid tid) (applyPut b now) db hno
    simp [updateTask, h]

/-- Witness for C4 at a concrete owned task: supplied optional fields
are taken from the input and the creation timestamp is preserved. -/
theorem C4_witness :
    (updateTask ("alice") (tAlice.id)
        ⟨("T2"), some ("newdesc"), Status.pending, some 7⟩ 42 [tAlice]).1
      = .ok 200 (applyPut ⟨("T2"), some ("newdesc"), Status.pending, some 7⟩ 42 tAlice) ∧
    (applyPut ⟨("T2"), some ("newdesc"), Status.pending, some 7⟩ 42 tAlice).createdAt
      = tAlice.createdAt ∧
    (applyPut ⟨("T2"), some ("newdesc"), Status.pending, some 7⟩ 42 tAlice).description
      = some ("newdesc") :=
  have h := C4_put_update_semantics ("alice") tAlice [tAlice]
    ⟨("T2"), some ("newdesc"), Status.pending, some 7⟩ 42
    (by decide) (by decide) (by decide) (by decide)
  ⟨h.1, h.2.2.2.1, h.2.2.2.2.2.2.1 ("newdesc") rfl⟩

theorem getTasks_status (uid : String) (q : ListQuery) (db : List Task) :
    (getTasks uid q db).status = 200 := by
  unfold getTasks
  split <;> rfl

theorem getTasks_meta_total (uid : String) (q : ListQuery) (db : List Task) :
    (getTasks uid q db).meta.total = (listFiltered uid q db).length := by
  unfold getTasks
  split <;> rfl

theorem getTasks_meta_pages (uid : String) (q : ListQuery) (db : List Task) :
    (getTasks uid q db).meta.pages = listTotalPages uid q db := by
  unfold getTasks
  split <;> rfl

theorem getTasks_meta_page (uid : String) (q : ListQuery) (db : List Task) :
    (getTasks uid q db).meta.page = effPage q := by
  unfold getTasks
  split <;> rfl

theorem getTasks_data_beyond (uid : String) (q : ListQuery) (db : List Task)
    (h : listTotalPages uid q db < effPage q) : (getTasks uid q db).data = [] := by
  have h1 : 1 < effPage q := lt_of_le_of_lt (le_max_left 1 _) h
  unfold getTasks
  rw [if_pos ⟨h1, h⟩]

/-- C5: every list response has status 200 and reports totalPages as the
maximum of 1 and the ceiling of total over the effective page size; a
request for a page strictly beyond totalPages yields an empty data page
while reporting the same total and totalPages a first-page request
reports, still with status 200 rather than an error. -/
theorem C5_pagination_beyond_last_page
    (uid : String) (q : ListQuery) (db : List Task)
    (hlim : ∀ l, q.limit = some l → 1 ≤ l) :
    (getTasks uid q db).status = 200 ∧
    1 ≤ effLimit q ∧
    (getTasks uid q db).meta.pages
      = max 1 (ceilDiv (getTasks uid q db).meta.total (effLimit q)) ∧
    (getTasks uid q db).meta.page = effPage q ∧
    (getTasks uid q db).meta.total
      = (getTasks uid ⟨q.search, q.status, some 1, q.limit⟩ db).meta.total ∧
    (getTasks uid q db).meta.pages
      = (getTasks uid ⟨q.search, q.status, some 1, q.limit⟩ db).meta.pages ∧
    (listTotalPages uid q db < effPage q → (getTasks uid q db).data = []) := by
  refine ⟨getTasks_status uid q db, ?_, ?_, getTasks_meta_page uid q db, ?_, ?_,
    getTasks_data_beyond uid q db⟩
  · unfold effLimit
    cases hq : q.limit with
    | none => norm_num
    | some l => exact le_min (hlim l hq) (by norm_num [maxPaginationLimit])
  · rw [getTasks_meta_pages, getTasks_meta_total]
    rfl
  · rw [getTasks_meta_total, getTasks_meta_total]
    rfl
  · rw [getTasks_meta_pages, getTasks_meta_pages]
    rfl

/-- Witness for C5 at a concrete collection of one task, page size 5 and
a page far beyond the last one. -/
theorem C5_witness :
    (getTasks ("alice") ⟨none, none, some 999, some 5⟩ [tAlice]).status = 200 ∧
    (getTasks ("alice") ⟨none, none, some 999, some 5⟩ [tAlice]).meta.pages
      = max 1 (ceilDiv (getTasks ("alice") ⟨none, none, some 999, some 5⟩ [tAlice]).meta.total
          (effLimit ⟨none, none, some 999, some 5⟩)) ∧
    (getTasks ("alice") ⟨none, none, some 999, some 5⟩ [tAlice]).meta.total
      = (getTasks ("alice") ⟨none, none, some 1, some 5⟩ [tAlice]).meta.total ∧
    (getTasks ("alice") ⟨none, none, some 999, some 5⟩ [tAlice]).data = [] :=
  have h := C5_pagination_beyond_last_page ("alice") ⟨none, none, some 999, some 5⟩ [tAlice]
    (by intro l hl; injection hl with h2; omega)
  ⟨h.1, h.2.2.1, h.2.2.2.2.1, h.2.2.2.2.2.2 (by decide)⟩

/-- C6, counterexample: a requested limit of 200, above the schema bound
of 100, is rejected with a 400 validation failure — not answered with a
successful response clamped to the configured maximum of 50. -/
theorem C6_counterexample :
    getTasksPipeline ("alice") ⟨none, none, none, some ("200")⟩ []
      = .error (400, [⟨("query.limit"), ("Number must be less than or equal to 100")⟩]) := by
  rfl

/-- C6 (amended): for every list request the schema accepts, the page
size the controller actually uses never exceeds the configured maximum
of 50: an accepted limit at or above that maximum is clamped to exactly
the maximum and the request still succeeds with status 200; however a
requested limit above the validation bound of 100 is rejected with a
validation error rather than clamped (see the counterexample). -/
theorem C6_accepted_limit_clamped
    (uid : String) (db : List Task) (r : RawListQuery) (q : ListQuery)
    (h : zodGetTasks r = .ok q) :
    effLimit q ≤ maxPaginationLimit ∧
    (∀ l, q.limit = some l → maxPaginationLimit ≤ l → effLimit q = maxPaginationLimit) ∧
    getTasksPipeline uid r db = .ok (getTasks uid q db) ∧
    (getTasks uid q db).status = 200 := by
  refine ⟨?_, ?_, ?_, getTasks_status uid q db⟩
  · unfold effLimit
    cases q.limit with
    | none => norm_num [maxPaginationLimit]
    | some l => exact min_le_right l maxPaginationLimit
  · intro l hl hml
    simp only [effLimit, hl]
    exact min_eq_right hml
  · unfold getTasksPipeline
    rw [h]

/-- Witness for C6: an accepted limit of 80 is clamped to the maximum of
50. -/
theorem C6_witness :
    effLimit ⟨none, none, none, some 80⟩ ≤ maxPaginationLimit ∧
    effLimit ⟨none, none, none, some 80⟩ = maxPaginationLimit :=
  have h := C6_accepted_limit_clamped ("alice") [] ⟨none, none, none, some ("80")⟩
    ⟨none, none, none, some 80⟩ (by rfl)
  ⟨h.1, h.2.1 80 rfl (by decide)⟩

theorem deleteConfirmField_ok {r : RawDeleteQuery} {u : Unit}
    (h : deleteConfirmField r = .ok u) : r.confirm = some ("true") := by
  unfold deleteConfirmField at h
  split at h
  · cases h
  · next s heq =>
    split at h
    · next hs =>
      rw [heq]
      exact congrArg some (eq_of_beq hs)
    · cases h

/-- C7: a bulk delete-by-status request without the literal confirm=true
flag fails validation with 400 and changes no record; with the flag, the
response reports the number of owned, live tasks of that status, every
owned task of that status ends up soft-deleted, and every record not
matched by the bulk filter is carried over unchanged. -/
theorem C7_bulk_delete_confirmation
    (uid : String) (r : RawDeleteQuery) (now : Int) (db : List Task) :
    (r.confirm ≠ some ("true") →
      deleteByStatusPipeline uid r now db = (.err 400 ("Validation failed"), db)) ∧
    (∀ s, zodDeleteTasksByStatus r = .ok s →
      (deleteByStatusPipeline uid r now db).1
        = .ok 200 ((db.filter (bulkDeleteMatch uid s)).length) ∧
      (∀ u ∈ (deleteByStatusPipeline uid r now db).2,
          u.user = uid → u.status = s → u.isDeleted = true) ∧
      (∀ t ∈ db, bulkDeleteMatch uid s t = false →
          t ∈ (deleteByStatusPipeline uid r now db).2)) := by
  constructor
  · intro hconfirm
    cases hcf : deleteConfirmField r with
    | ok u => exact absurd (deleteConfirmField_ok hcf) hconfirm
    | error e =>
      have hzod : ∃ es, zodDeleteTasksByStatus r = .error es := by
        unfold zodDeleteTasksByStatus
        rw [hcf]
        cases deleteStatusField r <;> exact ⟨_, rfl⟩
      obtain ⟨es, hzod⟩ := hzod
      unfold deleteByStatusPipeline
      rw [hzod]
  · intro s hzod
    have hpipe : deleteByStatusPipeline uid r now db
        = (.ok 200 (deleteTasksByStatus uid s now db).1,
           (deleteTasksByStatus uid s now db).2) := by
      unfold deleteByStatusPipeline
      rw [hzod]
    refine ⟨by rw [hpipe]; rfl, ?_, ?_⟩
    · intro u hu huser hstatus
      rw [hpipe] at hu
      simp only [deleteTasksByStatus, List.mem_map] at hu
      obtain ⟨t0, ht0, hgt⟩ := hu
      subst hgt
      by_cases hp : bulkDeleteMatch uid s t0 = true
      · rw [if_pos hp]
      · rw [if_neg hp]
        rw [if_neg hp] at huser hstatus
        cases hdel : t0.isDeleted with
        | true => rfl
        | false =>
          exfalso
          apply hp
          simp [bulkDeleteMatch, huser, hstatus, hdel]
    · intro t0 ht0 hnomatch
      rw [hpipe]
      simp only [deleteTasksByStatus, List.mem_map]
      refine ⟨t0, ht0, ?_⟩
      rw [if_neg (by simp [hnomatch])]

/-- Witness for C7: without confirmation nothing changes; with it, the
single pending task of the owner is counted and soft-deleted. -/
theorem C7_witness :
    deleteByStatusPipeline ("alice") ⟨some ("pending"), none⟩ 99 [tAlice]
      = (.err 400 ("Validation failed"), [tAlice]) ∧
    (deleteByStatusPipeline ("alice") ⟨some ("pending"), some ("true")⟩ 99 [tAlice]).1
      = .ok 200 (([tAlice].filter (bulkDeleteMatch ("alice") Status.pending)).length) :=
  have h1 := C7_bulk_delete_confirmation ("alice") ⟨some ("pending"), none⟩ 99 [tAlice]
  have h2 := C7_bulk_delete_confirmation ("alice") ⟨some ("pending"), some ("true")⟩ 99 [tAlice]
  ⟨h1.1 (by decide), (h2.2 Status.pending (by rfl)).1⟩

/-- C9, counterexample: on the complete-all route (schema is the empty
object) the validator output carries no body at all, yet the request the
handler receives still holds the raw, unvalidated body — the handler
does not observe the validator output in place of the raw input for a
part the schema leaves unconstrained. -/
theorem C9_counterexample :
    (parseEmptySchema ⟨[(("user"), JVal.s ("mallory"))], [], []⟩).body = none ∧
    (applyValidated ⟨[(("user"), JVal.s ("mallory"))], [], []⟩
        (parseEmptySchema ⟨[(("user"), JVal.s ("mallory"))], [], []⟩)).body
      = [(("user"), JVal.s ("mallory"))] :=
  ⟨rfl, rfl⟩

/-- C9 (amended): after zodResolver, every part the schema declares is
exactly the validator output for that part, while a part the schema does
not declare keeps the raw input — handlers that read only declared parts
(as all handlers of this code base do) observe only validated data. -/
theorem C9_declared_parts_replaced (r : RawReq) (v : ParsedReq) :
    (∀ b, v.body = some b → (applyValidated r v).body = b) ∧
    (v.body = none → (applyValidated r v).body = r.body) ∧
    (∀ ps, v.params = some ps → (applyValidated r v).params = ps) ∧
    (v.params = none → (applyValidated r v).params = r.params) ∧
    (∀ qs, v.query = some qs → (applyValidated r v).query = qs) ∧
    (v.query = none → (applyValidated r v).query = r.query) := by
  refine ⟨?_, ?_, ?_, ?_, ?_, ?_⟩
  · intro b h
    simp [applyValidated, h]
  · intro h
    simp [applyValidated, h]
  · intro ps h
    simp [applyValidated, h]
  · intro h
    simp [applyValidated, h]
  · intro qs h
    simp [applyValidated, h]
  · intro h
    simp [applyValidated, h]

/-- Witness for C9: a declared body is replaced by the validated body
while an undeclared query part keeps the raw query. -/
theorem C9_witness :
    (applyValidated ⟨[(("user"), JVal.s ("mallory"))], [], [(("x"), JVal.n 1)]⟩
        ⟨some [(("title"), JVal.s ("ok"))], none, none⟩).body
      = [(("title"), JVal.s ("ok"))] ∧
    (applyValidated ⟨[(("user"), JVal.s ("mallory"))], [], [(("x"), JVal.n 1)]⟩
        ⟨some [(("title"), JVal.s ("ok"))], none, none⟩).query
      = [(("x"), JVal.n 1)] :=
  have h := C9_declared_parts_replaced
    ⟨[(("user"), JVal.s ("mallory"))], [], [(("x"), JVal.n 1)]⟩
    ⟨some [(("title"), JVal.s ("ok"))], none, none⟩
  ⟨h.1 _ rfl, h.2.2.2.2.2 rfl⟩

end TaskApp
